import Mathlib

/-!
Verification of the KeyLang core of gachapy (gachapy/keylang.py) and its
weight-table collaborator (gachapy/objects.py).

The Python code is shallowly embedded:
* Python floats are modelled as rationals; an arithmetic fault that Python
  raises (ZeroDivisionError) is modelled as the value none.
* The exception raised by the module (its own SyntaxError class, carrying a
  message) is modelled by the constructor PErr.synErr; a Python IndexError
  raised by list.pop on an empty list is modelled by PErr.indexError.
* The recursive-descent parser mutates a token list by popping from the
  front; here each parse function takes the token list and returns the
  tokens left over, together with the tree it built.  The four mutually
  recursive productions are embedded as one structurally recursive function
  over a fuel parameter; PErr.outOfFuel is an artifact of the embedding and
  is unreachable for the generous fuel bound used by parse, since every
  recursive call either consumes a token or moves to a strictly
  higher-precedence production.
-/

namespace Gachapy

/-- The abstract syntax tree of KeyLang, one constructor per node class of
keylang.py: the classes for expressions, terms and factors each carry the
operator token in their data field, the float-literal class carries its
value, and the rarity class carries nothing. -/
inductive Ast where
  | expr (left : Ast) (right : Ast) (data : String)
  | term (left : Ast) (right : Ast) (data : String)
  | factor (left : Ast) (right : Ast) (data : String)
  | float (data : ℚ)
  | rar
  deriving DecidableEq, Repr

/-- The ways the embedded parser can fail: synErr models the module-defined
SyntaxError exception with its message, indexError models a Python
IndexError from popping an empty list, and outOfFuel is an artifact of the
fuel-based embedding of the mutual recursion. -/
inductive PErr where
  | synErr (msg : String)
  | indexError
  | outOfFuel
  deriving DecidableEq, Repr

/-- Result of a parse function: an error, or the tree built together with
the tokens still unconsumed at the front of the cursor. -/
abbrev PResult := Except PErr (Ast × List String)

instance {ε α : Type} [DecidableEq ε] [DecidableEq α] : DecidableEq (Except ε α) :=
  fun a b =>
    match a, b with
    | .ok x, .ok y =>
      if h : x = y then .isTrue (by rw [h]) else .isFalse (by simp [h])
    | .error x, .error y =>
      if h : x = y then .isTrue (by rw [h]) else .isFalse (by simp [h])
    | .ok _, .error _ => .isFalse (by simp)
    | .error _, .ok _ => .isFalse (by simp)

/-- The whitespace characters recognized by Python str.split with no
argument: space, tab, newline, carriage return, vertical tab, form feed. -/
def isPySpace (c : Char) : Bool :=
  c = ' ' || c = '\t' || c = '\n' || c = '\r' || c = '\x0b' || c = '\x0c'

/-- Worker for the model of str.split: walks the characters keeping the
current (reversed) in-progress token, emitting it at each whitespace run
boundary and discarding empty pieces. -/
def splitAux : List Char → List Char → List (List Char)
  | [], acc => if acc.isEmpty then [] else [acc.reverse]
  | c :: cs, acc =>
    if isPySpace c then
      if acc.isEmpty then splitAux cs [] else acc.reverse :: splitAux cs []
    else
      splitAux cs (c :: acc)

/-- Embeds _tokenize (keylang.py line 89): Python s.split(), splitting the
string on runs of whitespace and never failing. -/
def _tokenize (s : String) : List String :=
  (splitAux s.toList []).map fun cs => String.mk cs

/-- Numeric value of a digit character. -/
def digitVal (c : Char) : ℕ := c.toNat - 48

/-- Value of a digit run read in base ten. -/
def digitsToNat (cs : List Char) : ℕ :=
  cs.foldl (fun a c => 10 * a + digitVal c) 0

/-!
Mathlib seals the arithmetic operations of ℚ behind an irreducibility
attribute, which blocks kernel evaluation of concrete runs.  The embedding
therefore computes on ℚ through Rat.divInt (which the kernel evaluates),
and the lemmas qadd_eq, qsub_eq, qmul_eq, qdiv_eq, qnpow_eq and qzpow_eq
below prove that each wrapper is exactly the corresponding Mathlib
operation.
-/

/-- Addition on ℚ, computed through Rat.divInt; equals + by qadd_eq. -/
def qadd (a b : ℚ) : ℚ :=
  Rat.divInt (a.num * b.den + b.num * a.den) (a.den * b.den)

/-- Subtraction on ℚ, computed through Rat.divInt; equals - by qsub_eq. -/
def qsub (a b : ℚ) : ℚ :=
  Rat.divInt (a.num * b.den - b.num * a.den) (a.den * b.den)

/-- Multiplication on ℚ, computed through Rat.divInt; equals * by qmul_eq. -/
def qmul (a b : ℚ) : ℚ :=
  Rat.divInt (a.num * b.num) (a.den * b.den)

/-- Division on ℚ, computed through Rat.divInt; equals / by qdiv_eq. -/
def qdiv (a b : ℚ) : ℚ :=
  Rat.divInt (a.num * b.den) (a.den * b.num)

/-- Power of ℚ by a natural exponent, computed through Rat.divInt; equals
^ by qnpow_eq. -/
def qnpow (a : ℚ) (n : ℕ) : ℚ :=
  Rat.divInt (a.num ^ n) (a.den ^ n)

/-- Power of ℚ by an integer exponent, computed through Rat.divInt; equals
^ by qzpow_eq. -/
def qzpow (a : ℚ) : ℤ → ℚ
  | .ofNat m => qnpow a m
  | .negSucc m => Rat.divInt (a.den ^ (m + 1)) (a.num ^ (m + 1))

/-- Model of Python float() on the decimal literal forms
sign? (digits fraction? | fraction) exponent?: returns none when the
string is not such a literal.  Python float() also accepts spellings such
as inf or nan and underscore separators; no formula in the repository or
its tests uses them, and the claims need only that ordinary decimal
literals succeed and that operator and parenthesis tokens fail. -/
def pyFloat (s : String) : Option ℚ :=
  let cs := s.toList
  let sgncs : ℤ × List Char :=
    match cs with
    | '+' :: t => (1, t)
    | '-' :: t => (-1, t)
    | _ => (1, cs)
  let ip := sgncs.2.takeWhile Char.isDigit
  let cs2 := sgncs.2.dropWhile Char.isDigit
  let fpcs : List Char × List Char :=
    match cs2 with
    | '.' :: t => (t.takeWhile Char.isDigit, t.dropWhile Char.isDigit)
    | _ => ([], cs2)
  if ip.isEmpty && fpcs.1.isEmpty then none
  else
    let num : ℤ :=
      sgncs.1 * ((digitsToNat ip : ℤ) * 10 ^ fpcs.1.length + (digitsToNat fpcs.1 : ℤ))
    let den : ℤ := 10 ^ fpcs.1.length
    match fpcs.2 with
    | [] => some (Rat.divInt num den)
    | e :: t =>
      if e = 'e' || e = 'E' then
        let esgnt : Bool × List Char :=
          match t with
          | '+' :: u => (true, u)
          | '-' :: u => (false, u)
          | _ => (true, t)
        let ed := esgnt.2.takeWhile Char.isDigit
        let t2 := esgnt.2.dropWhile Char.isDigit
        if ed.isEmpty || !t2.isEmpty then none
        else if esgnt.1 then some (Rat.divInt (num * 10 ^ digitsToNat ed) den)
        else some (Rat.divInt num (den * 10 ^ digitsToNat ed))
      else none

/-- Python " ".join. -/
def joinSpace (tokens : List String) : String :=
  String.intercalate " " tokens

/-- Embeds _parse_const (keylang.py line 213).  On the variable token it
returns the rarity node WITHOUT consuming the token (the Python code reads
tokens[0] but never pops it); otherwise it pops the token and tries to
read it as a float literal, failing with the message that joins the tokens
remaining after the pop.  Reading tokens[0] of an empty list would be a
Python IndexError (never reached from _parse_base, which checks first). -/
def _parse_const : List String → PResult
  | [] => .error .indexError
  | tok :: rest =>
    if tok = "R" then .ok (.rar, tok :: rest)
    else
      match pyFloat tok with
      | some v => .ok (.float v, rest)
      | none => .error (.synErr ("Float literal not found -> " ++ joinSpace rest))

/-- The four mutually recursive productions of the parser, as one index. -/
inductive NT where
  | exprNT
  | termNT
  | factorNT
  | baseNT
  deriving DecidableEq, Repr

/-- One step of the recursive-descent parser, with the recursive calls
abstracted: given the interpretation of the next-lower fuel level, embeds
the bodies of _parse_expr (keylang.py line 117), _parse_term (line 142),
_parse_factor (line 167) and _parse_base (line 189) literally: each
production parses the next-higher-precedence construct, then inspects the
next unconsumed token, and on a matching operator pops it and recurses
into the same production for the right-hand side; _parse_base on an empty
cursor raises the abrupt-end SyntaxError, and after an open parenthesis it
parses an inner expression and pops the next token, raising the
mismatched-parentheses SyntaxError when that token is not a close
parenthesis (a pop on an empty cursor being a Python IndexError). -/
def parseStep (rec : NT → List String → PResult) : NT → List String → PResult
  | .exprNT, tokens =>
    match rec .termNT tokens with
    | .error e => .error e
    | .ok (term, rest) =>
      match rest with
      | [] => .ok (term, [])
      | tok :: rest2 =>
        if tok = "+" then
          match rec .exprNT rest2 with
          | .error e => .error e
          | .ok (right, rest3) => .ok (.expr term right "+", rest3)
        else if tok = "-" then
          match rec .exprNT rest2 with
          | .error e => .error e
          | .ok (right, rest3) => .ok (.expr term right "-", rest3)
        else .ok (term, tok :: rest2)
  | .termNT, tokens =>
    match rec .factorNT tokens with
    | .error e => .error e
    | .ok (factor, rest) =>
      match rest with
      | [] => .ok (factor, [])
      | tok :: rest2 =>
        if tok = "*" then
          match rec .termNT rest2 with
          | .error e => .error e
          | .ok (right, rest3) => .ok (.term factor right "*", rest3)
        else if tok = "/" then
          match rec .termNT rest2 with
          | .error e => .error e
          | .ok (right, rest3) => .ok (.term factor right "/", rest3)
        else .ok (factor, tok :: rest2)
  | .factorNT, tokens =>
    match rec .baseNT tokens with
    | .error e => .error e
    | .ok (base, rest) =>
      match rest with
      | [] => .ok (base, [])
      | tok :: rest2 =>
        if tok = "^" then
          match rec .factorNT rest2 with
          | .error e => .error e
          | .ok (right, rest3) => .ok (.factor base right "^", rest3)
        else .ok (base, tok :: rest2)
  | .baseNT, tokens =>
    match tokens with
    | [] => .error (.synErr "Abrupt end of expression found")
    | tok :: rest =>
      if tok = "(" then
        match rec .exprNT rest with
        | .error e => .error e
        | .ok (base, rest2) =>
          match rest2 with
          | [] => .error .indexError
          | tok2 :: rest3 =>
            if tok2 = ")" then .ok (base, rest3)
            else .error (.synErr ("Mismatched parentheses at -> " ++ joinSpace rest3))
      else _parse_const (tok :: rest)

/-- Fuel-indexed interpretation of the four mutually recursive parse
functions; the fuel only bounds the recursion depth of the embedding. -/
def parseNT : ℕ → NT → List String → PResult
  | 0, _, _ => .error .outOfFuel
  | fuel + 1, nt, tokens => parseStep (parseNT fuel) nt tokens

/-- Embeds _parse_expr (keylang.py line 117). -/
def _parse_expr (fuel : ℕ) (tokens : List String) : PResult :=
  parseNT fuel .exprNT tokens

/-- Embeds _parse_term (keylang.py line 142). -/
def _parse_term (fuel : ℕ) (tokens : List String) : PResult :=
  parseNT fuel .termNT tokens

/-- Embeds _parse_factor (keylang.py line 167). -/
def _parse_factor (fuel : ℕ) (tokens : List String) : PResult :=
  parseNT fuel .factorNT tokens

/-- Embeds _parse_base (keylang.py line 189). -/
def _parse_base (fuel : ℕ) (tokens : List String) : PResult :=
  parseNT fuel .baseNT tokens

/-- Embeds _parse_tokens (keylang.py line 103): parses the token list as an
expression.  The fuel bound 4 * length + 4 is an upper bound on the call
depth of the Python recursion, in which every call either consumes a token
or moves to a strictly higher-precedence production. -/
def _parse_tokens (tokens : List String) : PResult :=
  _parse_expr (4 * tokens.length + 4) tokens

/-- Embeds parse (keylang.py line 74): tokenize then parse, returning only
the tree and discarding whatever tokens were left unconsumed. -/
def parse (s : String) : Except PErr Ast :=
  match _parse_tokens (_tokenize s) with
  | .ok (ast, _) => .ok ast
  | .error e => .error e

/-- Python float division: raises ZeroDivisionError on a zero divisor,
modelled as none. -/
def pyDiv (a b : ℚ) : Option ℚ :=
  if b = 0 then none else some (qdiv a b)

/-- Python float power restricted to the rational model: an integer
exponent gives the usual power, zero raised to a negative power is a
ZeroDivisionError (none), and a non-integer exponent generally has no
rational value and is likewise modelled as none. -/
def pyPow (a b : ℚ) : Option ℚ :=
  if b.den = 1 then
    if a = 0 ∧ b.num < 0 then none else some (qzpow a b.num)
  else none

/-- Embeds interpret (keylang.py line 235): a tree walk in which an
expression node adds when its data is the plus token and otherwise
subtracts, a term node multiplies when its data is the times token and
otherwise divides, a factor node always takes a power, a float node is its
value, and the rarity node is the supplied rarity.  none propagates an
arithmetic fault. -/
def interpret : Ast → ℚ → Option ℚ
  | .expr l r d, rarity => do
    let a ← interpret l rarity
    let b ← interpret r rarity
    if d = "+" then some (qadd a b) else some (qsub a b)
  | .term l r d, rarity => do
    let a ← interpret l rarity
    let b ← interpret r rarity
    if d = "*" then some (qmul a b) else pyDiv a b
  | .factor l r _, rarity => do
    let a ← interpret l rarity
    let b ← interpret r rarity
    pyPow a b
  | .float v, _ => some v
  | .rar, rarity => some rarity

/-- Written from the words of the spec (section 4.1): the ordered sequence
of maximal nonempty runs of non-whitespace characters, i.e. the result of
splitting the character list on whitespace runs.  Compared against the
source-derived _tokenize by the tokenizer claim. -/
def specSplit (cs : List Char) : List (List Char) :=
  match cs with
  | [] => []
  | c :: rest =>
    if isPySpace c then specSplit rest
    else
      (c :: rest.takeWhile (fun d => !isPySpace d)) ::
        specSplit (rest.dropWhile (fun d => !isPySpace d))
termination_by cs.length
decreasing_by
  · simp
  · simp
    have h : ∀ (p : Char → Bool) (l : List Char), (l.dropWhile p).length ≤ l.length := by
      intro p l
      induction l with
      | nil => simp [List.dropWhile]
      | cons a as iha =>
        rw [List.dropWhile_cons]
        by_cases hp : p a
        · simp only [hp, if_true]
          exact Nat.le_succ_of_le iha
        · simp [hp]
    have h2 := h (fun d => !isPySpace d) t
    omega

/-- The operator kinds of the AST as the spec describes it (section 3). -/
inductive OpKind where
  | add
  | sub
  | mul
  | div
  | pow
  deriving DecidableEq, Repr

/-- The AST as the spec describes it (section 3): a tagged variant with a
binary-operation case carrying an operator kind and two children, a
float-literal leaf, and a variable leaf carrying no data. -/
inductive SpecAst where
  | binaryOp (kind : OpKind) (left : SpecAst) (right : SpecAst)
  | literal (value : ℚ)
  | var
  deriving DecidableEq, Repr

/-- Written from the words of the spec (section 4.3): the reference
recursion of the interpreter, on the spec's form of the AST, over the same
rational model of Python float arithmetic. -/
def specEval : SpecAst → ℚ → Option ℚ
  | .binaryOp .add l r, rarity => do
    let a ← specEval l rarity
    let b ← specEval r rarity
    some (qadd a b)
  | .binaryOp .sub l r, rarity => do
    let a ← specEval l rarity
    let b ← specEval r rarity
    some (qsub a b)
  | .binaryOp .mul l r, rarity => do
    let a ← specEval l rarity
    let b ← specEval r rarity
    some (qmul a b)
  | .binaryOp .div l r, rarity => do
    let a ← specEval l rarity
    let b ← specEval r rarity
    pyDiv a b
  | .binaryOp .pow l r, rarity => do
    let a ← specEval l rarity
    let b ← specEval r rarity
    pyPow a b
  | .literal v, _ => some v
  | .var, rarity => some rarity

/-- Reads a source AST as a spec AST: an expression node whose data is the
plus or minus token is an addition or subtraction, a term node whose data
is the times or divide token is a multiplication or division, a factor
node whose data is the caret token is a power, the float node is the
literal leaf and the rarity node is the variable leaf; any other data
string makes the tree ill-formed and the translation none.  The parser
only ever stores the operator token it just consumed, so every tree it
returns translates. -/
def toSpecAst : Ast → Option SpecAst
  | .expr l r d => do
    let l2 ← toSpecAst l
    let r2 ← toSpecAst r
    if d = "+" then some (.binaryOp .add l2 r2)
    else if d = "-" then some (.binaryOp .sub l2 r2)
    else none
  | .term l r d => do
    let l2 ← toSpecAst l
    let r2 ← toSpecAst r
    if d = "*" then some (.binaryOp .mul l2 r2)
    else if d = "/" then some (.binaryOp .div l2 r2)
    else none
  | .factor l r d => do
    let l2 ← toSpecAst l
    let r2 ← toSpecAst r
    if d = "^" then some (.binaryOp .pow l2 r2) else none
  | .float v => some (.literal v)
  | .rar => some .var

/-- Embeds the Item class of objects.py: a name, an id and a rarity. -/
structure Item where
  name : String
  id : String
  rarity : ℚ
  deriving DecidableEq, Repr

/-- Item equality as defined by Item.__eq__ (objects.py line 81): two
items are equal exactly when their ids are equal. -/
def itemEq (a b : Item) : Bool :=
  a.id = b.id

/-- The loop of _get_random_weights (objects.py line 378): one interpreter
run per item, on that item's rarity, collecting the results in order; an
arithmetic fault at any item propagates (none). -/
def weightsLoop (ast : Ast) : List Item → Option (List ℚ)
  | [] => some []
  | item :: rest => do
    let w ← interpret ast item.rarity
    let ws ← weightsLoop ast rest
    some (w :: ws)

/-- Embeds _get_random_weights (objects.py line 362): parse the key once,
then interpret it once per item on the item's rarity.  A parse error or an
arithmetic fault propagates out of the function (none). -/
def _get_random_weights (items : List Item) (key : String) : Option (List ℚ) :=
  match parse key with
  | .error _ => none
  | .ok ast => weightsLoop ast items

/-- Embeds the Banner class of objects.py; the weights field embeds the
_weights attribute. -/
structure Banner where
  name : String
  id : String
  items : List Item
  price : ℚ
  key : String
  weights : List ℚ
  deriving DecidableEq, Repr

/-- Embeds Banner.__init__ (objects.py line 129): stores the fields and
computes the weight list from the items and the key; none models the
constructor raising when the key fails to parse or interpret. -/
def Banner.make (name id : String) (items : List Item) (price : ℚ)
    (key : String) : Option Banner :=
  match _get_random_weights items key with
  | some ws => some ⟨name, id, items, price, key, ws⟩
  | none => none

/-- Embeds Banner.add_item (objects.py line 162): appends the item and
recomputes the weight list; none models the recomputation raising. -/
def Banner.add_item (b : Banner) (item : Item) : Option Banner :=
  match _get_random_weights (b.items ++ [item]) b.key with
  | some ws => some { b with items := b.items ++ [item], weights := ws }
  | none => none

/-- Python list.remove: removes the first element equal (by Item.__eq__)
to the argument, or none when no element matches (a ValueError). -/
def removeFirst : List Item → Item → Option (List Item)
  | [], _ => none
  | x :: xs, item =>
    if itemEq x item then some xs
    else do
      let ys ← removeFirst xs item
      some (x :: ys)

/-- Embeds Banner.remove_item (objects.py line 177): tries to remove the
first occurrence and recompute the weights, returning true on success; the
bare except returns false either when the item is not found (the banner is
unchanged) or when the recomputation raises after the removal (the item
list is already mutated and the weight list is left stale, faithful to the
Python code). -/
def Banner.remove_item (b : Banner) (item : Item) : Banner × Bool :=
  match removeFirst b.items item with
  | none => (b, false)
  | some items2 =>
    match _get_random_weights items2 b.key with
    | some ws => ({ b with items := items2, weights := ws }, true)
    | none => ({ b with items := items2 }, false)

/-- The alignment invariant of a banner: its stored weight list is exactly
what _get_random_weights recomputes from its current items and key. -/
def weightsAligned (b : Banner) : Prop :=
  _get_random_weights b.items b.key = some b.weights

/-!
Theorems.
-/

theorem qadd_eq (a b : ℚ) : qadd a b = a + b := by
  have ha : (a.den : ℤ) ≠ 0 := Int.natCast_ne_zero.mpr a.den_nz
  have hb : (b.den : ℤ) ≠ 0 := Int.natCast_ne_zero.mpr b.den_nz
  conv_rhs => rw [← Rat.num_divInt_den a, ← Rat.num_divInt_den b,
    Rat.divInt_add_divInt _ _ ha hb]
  rfl

theorem qsub_eq (a b : ℚ) : qsub a b = a - b := by
  have h : qsub a b = qadd a (-b) := by
    rw [qadd, qsub, Rat.neg_num, Rat.neg_den]
    congr 1
    ring
  rw [h, qadd_eq, sub_eq_add_neg]

theorem qmul_eq (a b : ℚ) : qmul a b = a * b := by
  conv_rhs => rw [← Rat.num_divInt_den a, ← Rat.num_divInt_den b,
    Rat.divInt_mul_divInt']
  rfl

theorem qdiv_eq (a b : ℚ) : qdiv a b = a / b := by
  conv_rhs => rw [← Rat.num_divInt_den a, ← Rat.num_divInt_den b,
    Rat.divInt_div_divInt]
  rfl

theorem qnpow_eq (a : ℚ) (n : ℕ) : qnpow a n = a ^ n := by
  conv_rhs => rw [← Rat.num_divInt_den (a ^ n)]
  rw [Rat.num_pow, Rat.den_pow, qnpow, Nat.cast_pow]

theorem qzpow_eq (a : ℚ) (n : ℤ) : qzpow a n = a ^ n := by
  cases n with
  | ofNat m =>
    rw [qzpow, qnpow_eq]
    rw [show (Int.ofNat m) = (m : ℤ) from rfl, zpow_natCast]
  | negSucc m =>
    rw [qzpow, zpow_negSucc, Rat.inv_def', ← Rat.num_pow, Rat.den_pow,
      Nat.cast_pow]


theorem parseNT_succ (f : ℕ) (nt : NT) (ts : List String) :
    parseNT (f + 1) nt ts = parseStep (parseNT f) nt ts := rfl

theorem base_R (f : ℕ) (ts : List String) :
    parseNT (f + 1) .baseNT ("R" :: ts) = .ok (.rar, "R" :: ts) := by
  rw [parseNT_succ]
  simp [parseStep, _parse_const]

theorem factor_R (f : ℕ) (ts : List String) :
    parseNT (f + 2) .factorNT ("R" :: ts) = .ok (.rar, "R" :: ts) := by
  rw [show f + 2 = (f + 1) + 1 from rfl, parseNT_succ]
  simp [parseStep, base_R]

theorem term_R (f : ℕ) (ts : List String) :
    parseNT (f + 3) .termNT ("R" :: ts) = .ok (.rar, "R" :: ts) := by
  rw [show f + 3 = (f + 2) + 1 from rfl, parseNT_succ]
  simp [parseStep, factor_R]

theorem expr_R (f : ℕ) (ts : List String) :
    parseNT (f + 4) .exprNT ("R" :: ts) = .ok (.rar, "R" :: ts) := by
  rw [show f + 4 = (f + 3) + 1 from rfl, parseNT_succ]
  simp [parseStep, term_R]

theorem base_parenR (f : ℕ) (ts : List String) :
    parseNT (f + 5) .baseNT ("(" :: "R" :: ts) =
      .error (.synErr ("Mismatched parentheses at -> " ++ joinSpace ts)) := by
  rw [show f + 5 = (f + 4) + 1 from rfl, parseNT_succ]
  simp [parseStep, expr_R]

theorem factor_parenR (f : ℕ) (ts : List String) :
    parseNT (f + 6) .factorNT ("(" :: "R" :: ts) =
      .error (.synErr ("Mismatched parentheses at -> " ++ joinSpace ts)) := by
  rw [show f + 6 = (f + 5) + 1 from rfl, parseNT_succ]
  simp [parseStep, base_parenR]

theorem term_parenR (f : ℕ) (ts : List String) :
    parseNT (f + 7) .termNT ("(" :: "R" :: ts) =
      .error (.synErr ("Mismatched parentheses at -> " ++ joinSpace ts)) := by
  rw [show f + 7 = (f + 6) + 1 from rfl, parseNT_succ]
  simp [parseStep, factor_parenR]

theorem expr_parenR (f : ℕ) (ts : List String) :
    parseNT (f + 8) .exprNT ("(" :: "R" :: ts) =
      .error (.synErr ("Mismatched parentheses at -> " ++ joinSpace ts)) := by
  rw [show f + 8 = (f + 7) + 1 from rfl, parseNT_succ]
  simp [parseStep, term_parenR]

theorem parse_headR (s : String) (rest : List String)
    (h : _tokenize s = "R" :: rest) : parse s = .ok .rar := by
  have h2 : _parse_tokens (_tokenize s) = .ok (.rar, "R" :: rest) := by
    rw [h, _parse_tokens, _parse_expr]
    rw [show 4 * ("R" :: rest : List String).length + 4 =
      (4 * rest.length + 4) + 4 by simp [List.length_cons]; ring]
    exact expr_R (4 * rest.length + 4) rest
  rw [parse, h2]

theorem parse_parenR (s : String) (rest : List String)
    (h : _tokenize s = "(" :: "R" :: rest) :
    parse s = .error (.synErr ("Mismatched parentheses at -> " ++ joinSpace rest)) := by
  have h2 : _parse_tokens (_tokenize s) =
      .error (.synErr ("Mismatched parentheses at -> " ++ joinSpace rest)) := by
    rw [h, _parse_tokens, _parse_expr]
    rw [show 4 * ("(" :: "R" :: rest : List String).length + 4 =
      (4 * rest.length + 4) + 8 by simp [List.length_cons]; ring]
    exact expr_parenR (4 * rest.length + 4) rest
  rw [parse, h2]

theorem base_paren_mismatch (f : ℕ) (ts : List String) (ast : Ast)
    (tok : String) (r : List String)
    (h : _parse_expr f ts = .ok (ast, tok :: r)) (hne : tok ≠ ")") :
    _parse_base (f + 1) ("(" :: ts) =
      .error (.synErr ("Mismatched parentheses at -> " ++ joinSpace r)) := by
  rw [_parse_expr] at h
  rw [_parse_base, parseNT_succ]
  simp [parseStep, h, hne]

theorem base_paren_exhausted (f : ℕ) (ts : List String) (ast : Ast)
    (h : _parse_expr f ts = .ok (ast, [])) :
    _parse_base (f + 1) ("(" :: ts) = .error .indexError := by
  rw [_parse_expr] at h
  rw [_parse_base, parseNT_succ]
  simp [parseStep, h]

theorem base_empty (f : ℕ) :
    _parse_base (f + 1) [] = .error (.synErr "Abrupt end of expression found") := by
  rw [_parse_base, parseNT_succ]
  simp [parseStep]

theorem interpret_eq_specEval (ast : Ast) :
    ∀ sast : SpecAst, toSpecAst ast = some sast →
      ∀ rarity : ℚ, interpret ast rarity = specEval sast rarity := by
  induction ast with
  | expr a b d iha ihb =>
    intro sast h rarity
    rcases ha : toSpecAst a with _ | a2 <;> rw [toSpecAst] at h <;> simp [ha] at h
    rcases hb : toSpecAst b with _ | b2 <;> simp [hb] at h
    by_cases hd : d = "+"
    · simp [hd] at h
      subst h
      rw [interpret, specEval, iha a2 ha rarity, ihb b2 hb rarity]
      simp [hd]
    · by_cases hd2 : d = "-"
      · simp [hd, hd2] at h
        subst h
        rw [interpret, specEval, iha a2 ha rarity, ihb b2 hb rarity]
        simp [hd, hd2]
      · simp [hd, hd2] at h
  | term a b d iha ihb =>
    intro sast h rarity
    rcases ha : toSpecAst a with _ | a2 <;> rw [toSpecAst] at h <;> simp [ha] at h
    rcases hb : toSpecAst b with _ | b2 <;> simp [hb] at h
    by_cases hd : d = "*"
    · simp [hd] at h
      subst h
      rw [interpret, specEval, iha a2 ha rarity, ihb b2 hb rarity]
      simp [hd]
    · by_cases hd2 : d = "/"
      · simp [hd, hd2] at h
        subst h
        rw [interpret, specEval, iha a2 ha rarity, ihb b2 hb rarity]
        simp [hd, hd2]
      · simp [hd, hd2] at h
  | factor a b d iha ihb =>
    intro sast h rarity
    rcases ha : toSpecAst a with _ | a2 <;> rw [toSpecAst] at h <;> simp [ha] at h
    rcases hb : toSpecAst b with _ | b2 <;> simp [hb] at h
    by_cases hd : d = "^"
    · simp [hd] at h
      subst h
      rw [interpret, specEval, iha a2 ha rarity, ihb b2 hb rarity]
    · simp [hd] at h
  | float v =>
    intro sast h rarity
    rw [toSpecAst] at h
    simp at h
    rw [← h, interpret, specEval]
  | rar =>
    intro sast h rarity
    rw [toSpecAst] at h
    simp at h
    rw [← h, interpret, specEval]

theorem weightsLoop_length (ast : Ast) :
    ∀ (items : List Item) (ws : List ℚ), weightsLoop ast items = some ws →
      ws.length = items.length := by
  intro items
  induction items with
  | nil =>
    intro ws h
    rw [weightsLoop] at h
    simp at h
    simp [h]
  | cons x xs ih =>
    intro ws h
    rw [weightsLoop] at h
    rcases hw : interpret ast x.rarity with _ | w <;> rw [hw] at h <;> simp at h
    rcases hws : weightsLoop ast xs with _ | ws2 <;> rw [hws] at h <;> simp at h
    rw [← h]
    simp [ih ws2 hws]

theorem weightsLoop_get (ast : Ast) :
    ∀ (items : List Item) (ws : List ℚ), weightsLoop ast items = some ws →
      ∀ (i : ℕ) (hi : i < items.length) (hw : i < ws.length),
        interpret ast (items.get ⟨i, hi⟩).rarity = some (ws.get ⟨i, hw⟩) := by
  intro items
  induction items with
  | nil =>
    intro ws h i hi
    exact absurd hi (by simp)
  | cons x xs ih =>
    intro ws h i hi hw
    rw [weightsLoop] at h
    rcases hw0 : interpret ast x.rarity with _ | w <;> rw [hw0] at h <;> simp at h
    rcases hws : weightsLoop ast xs with _ | ws2 <;> rw [hws] at h <;> simp at h
    subst h
    cases i with
    | zero => simpa using hw0
    | succ j =>
      have hj : j < xs.length := by
        simpa [List.length_cons] using hi
      have hjw : j < ws2.length := by
        simpa [List.length_cons] using hw
      simpa using ih ws2 hws j hj hjw

theorem grw_loop (items : List Item) (key : String) (ast : Ast) (ws : List ℚ)
    (h1 : parse key = .ok ast) (h2 : _get_random_weights items key = some ws) :
    weightsLoop ast items = some ws := by
  rw [_get_random_weights, h1] at h2
  exact h2

theorem make_aligned (name id : String) (items : List Item) (price : ℚ)
    (key : String) (b : Banner) (h : Banner.make name id items price key = some b) :
    weightsAligned b := by
  rw [Banner.make] at h
  rcases hg : _get_random_weights items key with _ | ws <;> rw [hg] at h <;> simp at h
  rw [weightsAligned, ← h]
  exact hg

theorem add_item_aligned (b : Banner) (item : Item) (b2 : Banner)
    (h : Banner.add_item b item = some b2) : weightsAligned b2 := by
  rw [Banner.add_item] at h
  rcases hg : _get_random_weights (b.items ++ [item]) b.key with _ | ws <;>
    rw [hg] at h <;> simp at h
  rw [weightsAligned, ← h]
  exact hg

theorem remove_item_aligned (b : Banner) (item : Item) (b2 : Banner)
    (h : Banner.remove_item b item = (b2, true)) : weightsAligned b2 := by
  rw [Banner.remove_item] at h
  split at h
  · simp at h
  · split at h
    next items2 hr ws hg =>
      simp at h
      rw [weightsAligned, ← h]
      exact hg
    next => simp at h

theorem splitAux_spec (cs : List Char) : ∀ acc : List Char,
    splitAux cs acc =
      if acc.isEmpty then specSplit cs
      else (acc.reverse ++ cs.takeWhile (fun d => !isPySpace d)) ::
        specSplit (cs.dropWhile (fun d => !isPySpace d)) := by
  induction cs with
  | nil =>
    intro acc
    cases acc <;> simp [splitAux, specSplit]
  | cons c rest ih =>
    intro acc
    by_cases hsp : isPySpace c
    · cases acc with
      | nil =>
        simp [splitAux, hsp, ih [], specSplit]
      | cons a as =>
        simp [splitAux, hsp, ih [], specSplit, List.takeWhile_cons,
          List.dropWhile_cons]
    · cases acc with
      | nil =>
        simp [splitAux, hsp, ih [c], specSplit, List.takeWhile_cons,
          List.dropWhile_cons]
      | cons a as =>
        simp [splitAux, hsp, ih (c :: a :: as), specSplit, List.takeWhile_cons,
          List.dropWhile_cons]

theorem tokenize_eq_specSplit (s : String) :
    _tokenize s = (specSplit s.toList).map (fun cs => String.mk cs) := by
  rw [_tokenize, splitAux_spec]
  simp

/-!
Claim theorems.
-/

/-- C1, counterexample: on the input of the claim, "( 1 + 1", parse does
not raise the module's SyntaxError: the inner expression consumes every
remaining token, so the pop that looks for the closing parenthesis acts on
an empty list and raises a Python IndexError instead. -/
theorem c1_counterexample : parse "( 1 + 1" = .error PErr.indexError := by rfl

/-- C1, amended: for "( 1 + 1" parse fails with IndexError (pop from an
empty list), not SyntaxError; in general, after Base consumes an open
parenthesis and the inner Expr returns, a SyntaxError naming the unparsed
remainder (the tokens left after the checked token is popped) is raised
exactly when a token remains and it is not the close parenthesis, while an
empty remainder raises IndexError. -/
theorem c1_paren_mismatch_amended :
    parse "( 1 + 1" = .error PErr.indexError ∧
    (∀ (fuel : ℕ) (ts : List String) (ast : Ast) (tok : String) (r : List String),
      _parse_expr fuel ts = .ok (ast, tok :: r) → tok ≠ ")" →
      _parse_base (fuel + 1) ("(" :: ts) =
        .error (.synErr ("Mismatched parentheses at -> " ++ joinSpace r))) ∧
    (∀ (fuel : ℕ) (ts : List String) (ast : Ast),
      _parse_expr fuel ts = .ok (ast, []) →
      _parse_base (fuel + 1) ("(" :: ts) = .error PErr.indexError) := by
  refine ⟨by rfl, ?_, ?_⟩
  · intro fuel ts ast tok r h hne
    exact base_paren_mismatch fuel ts ast tok r h hne
  · intro fuel ts ast h
    exact base_paren_exhausted fuel ts ast h

/-- C1, witness: the amended statement applied at the concrete run in
which the inner expression leaves the token "x" in front. -/
theorem c1_witness :
    _parse_expr 8 ["1", "x"] = .ok (.float 1, ["x"]) ∧
    _parse_base 9 ["(", "1", "x"] =
      .error (.synErr ("Mismatched parentheses at -> " ++ joinSpace [])) := by
  refine ⟨by decide, ?_⟩
  exact c1_paren_mismatch_amended.2.1 8 ["1", "x"] (.float 1) "x" []
    (by decide) (by decide)

/-- C2: the parser never consumes the variable token; hence for every
input whose first token is "R" parse succeeds and returns only the
variable node (whose interpretation is the supplied rarity), and every
input whose tokens start with an open parenthesis followed by "R" fails
with the mismatched-parentheses SyntaxError. -/
theorem c2_variable_token_not_consumed :
    (∀ ts : List String, _parse_const ("R" :: ts) = .ok (.rar, "R" :: ts)) ∧
    (∀ (s : String) (rest : List String) (r : ℚ), _tokenize s = "R" :: rest →
      parse s = .ok .rar ∧ interpret .rar r = some r) ∧
    (∀ (s : String) (rest : List String), _tokenize s = "(" :: "R" :: rest →
      parse s = .error (.synErr ("Mismatched parentheses at -> " ++ joinSpace rest))) := by
  refine ⟨?_, ?_, ?_⟩
  · intro ts
    rw [_parse_const]
    simp
  · intro s rest r h
    exact ⟨parse_headR s rest h, rfl⟩
  · intro s rest h
    exact parse_parenR s rest h

/-- C2, witness: "R + 1" parses to the bare variable node, which
interprets to the rarity, and "( R )" raises the mismatched-parentheses
SyntaxError. -/
theorem c2_witness :
    (parse "R + 1" = .ok .rar ∧ interpret .rar 5 = some 5) ∧
    parse "( R )" = .error (.synErr "Mismatched parentheses at -> )") := by
  refine ⟨?_, ?_⟩
  · exact c2_variable_token_not_consumed.2.1 "R + 1" ["+", "1"] 5 (by rfl)
  · exact c2_variable_token_not_consumed.2.2 "( R )" [")"] (by rfl)

/-- C3: every operator is right-associative, so "10 - 3 - 2" parses as
10 - (3 - 2), which interprets at rarity 0 to 9; the left-associative tree
would interpret to 5, and 9 is not 5. -/
theorem c3_right_associativity :
    parse "10 - 3 - 2" =
      .ok (.expr (.float 10) (.expr (.float 3) (.float 2) "-") "-") ∧
    interpret (.expr (.float 10) (.expr (.float 3) (.float 2) "-") "-") 0 = some 9 ∧
    interpret (.expr (.expr (.float 10) (.float 3) "-") (.float 2) "-") 0 = some 5 ∧
    (9 : ℚ) ≠ 5 := by
  refine ⟨by decide, by decide, by decide, by decide⟩

/-- C4: for every item list and key, when the key parses, the recomputed
weight list has the length of the item list and its i-th element is the
interpretation of the key at the i-th item's rarity; and banner
construction, add_item, and a successful remove_item all leave the banner
with exactly the recomputed weight list for its current items and key. -/
theorem c4_weight_alignment :
    (∀ (items : List Item) (key : String) (ast : Ast) (ws : List ℚ),
      parse key = .ok ast → _get_random_weights items key = some ws →
      ws.length = items.length ∧
        ∀ (i : ℕ) (hi : i < items.length) (hw : i < ws.length),
          interpret ast (items.get ⟨i, hi⟩).rarity = some (ws.get ⟨i, hw⟩)) ∧
    (∀ (name id : String) (items : List Item) (price : ℚ) (key : String) (b : Banner),
      Banner.make name id items price key = some b → weightsAligned b) ∧
    (∀ (b : Banner) (item : Item) (b2 : Banner),
      Banner.add_item b item = some b2 → weightsAligned b2) ∧
    (∀ (b : Banner) (item : Item) (b2 : Banner),
      Banner.remove_item b item = (b2, true) → weightsAligned b2) := by
  refine ⟨?_, ?_, ?_, ?_⟩
  · intro items key ast ws h1 h2
    have hl := grw_loop items key ast ws h1 h2
    exact ⟨weightsLoop_length ast items ws hl, weightsLoop_get ast items ws hl⟩
  · intro name id items price key b h
    exact make_aligned name id items price key b h
  · intro b item b2 h
    exact add_item_aligned b item b2 h
  · intro b item b2 h
    exact remove_item_aligned b item b2 h

/-- C4, witness: a one-item banner with key "R" is constructed with weight
list [3], which is aligned. -/
theorem c4_witness :
    Banner.make "b" "b1" [⟨"i", "i1", 3⟩] 1 "R" =
      some ⟨"b", "b1", [⟨"i", "i1", 3⟩], 1, "R", [3]⟩ ∧
    weightsAligned ⟨"b", "b1", [⟨"i", "i1", 3⟩], 1, "R", [3]⟩ := by
  refine ⟨by decide, ?_⟩
  exact c4_weight_alignment.2.1 "b" "b1" [⟨"i", "i1", 3⟩] 1 "R"
    ⟨"b", "b1", [⟨"i", "i1", 3⟩], 1, "R", [3]⟩ (by decide)

/-- C5: on every well-formed tree (one whose operator strings are the ones
the parser stores, as witnessed by the translation to the spec's AST), the
interpreter computes exactly the reference recursion of the spec, for
every rarity; its only failure mode is the propagated arithmetic fault
(none), never a syntax error. -/
theorem c5_interpreter_reference_recursion :
    ∀ (ast : Ast) (sast : SpecAst), toSpecAst ast = some sast →
      ∀ rarity : ℚ, interpret ast rarity = specEval sast rarity := by
  intro ast
  exact interpret_eq_specEval ast

/-- C5, witness: the reference equality applied at the division tree
1 / R with rarity 2. -/
theorem c5_witness :
    toSpecAst (.term (.float 1) .rar "/") =
      some (.binaryOp .div (.literal 1) .var) ∧
    interpret (.term (.float 1) .rar "/") 2 =
      specEval (.binaryOp .div (.literal 1) .var) 2 := by
  refine ⟨by decide, ?_⟩
  exact c5_interpreter_reference_recursion (.term (.float 1) .rar "/")
    (.binaryOp .div (.literal 1) .var) (by decide) 2

/-- C6: multiplication binds tighter than addition, so "1 + 2 * 2" parses
as 1 + (2 * 2) and interprets at rarity 0 to 5. -/
theorem c6_precedence :
    parse "1 + 2 * 2" =
      .ok (.expr (.float 1) (.term (.float 2) (.float 2) "*") "+") ∧
    interpret (.expr (.float 1) (.term (.float 2) (.float 2) "*") "+") 0 = some 5 := by
  refine ⟨by decide, by decide⟩

/-- C7: variable substitution works through the pipeline: "1 + R" parses
to 1 + R and interprets at rarity 1 to 2, the variable leaf evaluating to
the supplied rarity. -/
theorem c7_variable_substitution :
    parse "1 + R" = .ok (.expr (.float 1) .rar "+") ∧
    interpret (.expr (.float 1) .rar "+") 1 = some 2 ∧
    (∀ r : ℚ, interpret .rar r = some r) := by
  refine ⟨by decide, by decide, fun r => rfl⟩

/-- C7, witness: the variable leaf at rarity 7. -/
theorem c7_witness : interpret .rar 7 = some 7 :=
  c7_variable_substitution.2.2 7

/-- C8: the empty string tokenizes to the empty sequence, and parsing it
raises the abrupt-end SyntaxError, which Base raises whenever it is
reached with no remaining tokens. -/
theorem c8_empty_input :
    _tokenize "" = [] ∧
    parse "" = .error (.synErr "Abrupt end of expression found") ∧
    (∀ fuel : ℕ, _parse_base (fuel + 1) [] =
      .error (.synErr "Abrupt end of expression found")) := by
  refine ⟨by rfl, by rfl, ?_⟩
  intro fuel
  exact base_empty fuel

/-- C8, witness: Base with no tokens at a concrete fuel. -/
theorem c8_witness :
    _parse_base 1 [] = .error (.synErr "Abrupt end of expression found") :=
  c8_empty_input.2.2 0

/-- C9: the tokenizer is exactly splitting on whitespace runs: for every
string it returns the ordered sequence of maximal nonempty runs of
non-whitespace characters, it raises no error (it is a total function),
and it maps the empty string to the empty sequence. -/
theorem c9_tokenizer_split :
    (∀ s : String, _tokenize s = (specSplit s.toList).map (fun cs => String.mk cs)) ∧
    _tokenize "" = [] := by
  refine ⟨?_, by rfl⟩
  intro s
  exact tokenize_eq_specSplit s

/-- C9, witness: the characterization at a concrete string with leading,
trailing and repeated whitespace. -/
theorem c9_witness :
    _tokenize " 2 *  ( 1 + R ) " =
      (specSplit (" 2 *  ( 1 + R ) ").toList).map (fun cs => String.mk cs) :=
  c9_tokenizer_split.1 " 2 *  ( 1 + R ) "

/-- C10: determinism: parsing is a function and interpretation is a
function, so two runs of interpret on the parse of a fixed expression with
a fixed rarity return the same value. -/
theorem c10_determinism :
    ∀ (e : String) (r v w : ℚ) (ast : Ast), parse e = .ok ast →
      interpret ast r = some v → interpret ast r = some w → v = w := by
  intro e r v w ast hp h1 h2
  rw [h1] at h2
  exact Option.some.inj h2

/-- C10, witness: determinism applied at the concrete run of "1 + 1" with
rarity 0. -/
theorem c10_witness :
    parse "1 + 1" = .ok (.expr (.float 1) (.float 1) "+") ∧ (2 : ℚ) = 2 := by
  refine ⟨by decide, ?_⟩
  exact c10_determinism "1 + 1" 0 2 2 (.expr (.float 1) (.float 1) "+")
    (by decide) (by decide) (by decide)

end Gachapy
